import Mathlib

/-!
Verification development for the boxting smart contract
(`src/boxting-contract.ts`, first revision, together with the private-data
variant contract).  The TypeScript transaction handlers are embedded as pure
Lean functions over an explicit ledger state:

* The Fabric world state (`ctx.stub.getState` / `putState`) becomes an
  association list from keys to records; `putState` overwrites the binding
  at a key.  The source namespaces keys as `event-<id>`, `election-<id>`,
  `candidate-<id>`, `voter-<id>`, `vote-<id>`; since no two of those five
  prefixes can produce the same concatenated string (they differ within the
  first six characters), keys are modelled as an inductive type tagging the
  namespace, and key equality coincides with equality of the concatenated
  strings.
* JSON-encoded records become typed structures; the `type` discriminator
  field written by every class constructor is carried by the `Record`
  constructor.  `Voter.votedElectionIds`, kept by the source as a JSON
  string and re-parsed at each use site, is modelled as the parsed list.
* External effects are explicit parameters: `Date.now()` becomes a `now`
  argument (epoch milliseconds as `Int`), and the `Math.random()` based id
  of the `Vote` constructor becomes a `freshVoteId` argument.
* A thrown `Error` aborts the Fabric transaction and discards its writes, so
  each handler returns `Except CErr (Ledger × Bool)`; `commitTx` applies the
  all-or-nothing semantics (on error the ledger is unchanged).
-/

namespace Boxting

/-- Ledger key, one constructor per key namespace of the source
(`event-<id>`, `election-<id>`, `candidate-<id>`, `voter-<id>`,
`vote-<id>`). -/
inductive LKey where
  | event (id : String)
  | election (id : String)
  | candidate (id : String)
  | voter (id : String)
  | vote (id : String)
deriving DecidableEq

/-- The `Event` class (`classes/event.ts`): id plus start and end date of the
voting window.  Dates are epoch milliseconds (the value of
`Date.getTime()`). -/
structure EventRec where
  id : String
  startDate : Int
  endDate : Int
deriving DecidableEq

/-- The `Election` class (`classes/election.ts`). -/
structure ElectionRec where
  id : String
  eventId : String
  electionType : String
  maxVotes : Nat
deriving DecidableEq

/-- The `VotableItem` class (`classes/votable-item.ts`); the constructor sets
`voteCount` to 0. -/
structure VotableItem where
  id : String
  electionId : String
  firstName : String
  lastName : String
  imageUrl : String
  voteCount : Nat
deriving DecidableEq

/-- The `Voter` class (`classes/voter.ts`).  The source keeps
`votedElectionIds` as the JSON string of a list of election ids and parses it
at each use site; it is modelled as the parsed list (the constructor sets it
to the empty list, source string form `[]`). -/
structure VoterRec where
  id : String
  firstName : String
  lastName : String
  votedElectionIds : List String
deriving DecidableEq

/-- The `Vote` class (`classes/vote.ts`).  The source generates `id` from
`Math.random()`; the embedding receives that id as an explicit argument. -/
structure VoteRec where
  id : String
  electionId : String
  voterId : String
  selectedCandidates : List VotableItem
deriving DecidableEq

/-- A record stored in the world state.  The constructor doubles as the
`type` discriminator field that every class constructor writes
(`event`, `election`, `votable`, `voter`, `vote`) and that selector queries
filter on. -/
inductive Record where
  | event (e : EventRec)
  | election (e : ElectionRec)
  | candidate (c : VotableItem)
  | voter (v : VoterRec)
  | vote (v : VoteRec)
deriving DecidableEq

/-- The world state: bindings from keys to records, most recent binding
first. -/
abbrev Ledger := List (LKey × Record)

/-- Embedding of `ctx.stub.getState`: the current binding at a key, `none`
when absent (the source tests `!!data && data.length > 0`). -/
def getState : Ledger → LKey → Option Record
  | [], _ => none
  | (k', r) :: rest, k => if k' = k then some r else getState rest k

/-- Remove every binding at a key (helper for `putState`). -/
def removeKey (l : Ledger) (k : LKey) : Ledger :=
  l.filter (fun p => decide (p.1 ≠ k))

/-- Embedding of `ctx.stub.putState`: overwrite the binding at a key. -/
def putState (l : Ledger) (k : LKey) (r : Record) : Ledger :=
  (k, r) :: removeKey l k

/-- True for records whose `type` discriminator is `event`. -/
def Record.isEvent : Record → Bool
  | .event _ => true
  | _ => false

/-- Embedding of `queryByObjectType(ctx, 'event')`: all stored records whose
`type` field is `event`, returned as the `{key, record}` result envelopes
built by `queryWithQueryString`. -/
def queryEvents (l : Ledger) : List (LKey × Record) :=
  l.filter (fun p => p.2.isEvent)

/-- Error taxonomy.  Each constructor corresponds to one thrown `Error` of
the source, named by its message:
`alreadyInitiated` = "The boxting contract has already been initiated"
(AlreadyExists); `notInitiated` = "The boxting contract has not been
initiated" (NotInitialized); `eventNotAvailable` = "The event is not
avaliable for voting" (NotPermitted); `electionNotFound` / `voterNotFound` /
`candidateNotFound` = "... does not exists" (NotFound); `alreadyVoted` =
"The voter has already voted for the election ..." (NotPermitted);
`wrongCandidateCount` = "The number of candidates sent is not the same as
the required for the election" (BadRequest); `candidateNotInElection` =
"A candidate with the id ... does not belong to election ..." (BadRequest);
`voterAlreadyExists` = "A voter with the id ... already exists"
(AlreadyExists); `notVotedYet` = "The voter has not voted yet" (BadRequest);
`notVotedOnElection` = "The voter has not voted yet on this election."
(BadRequest); `privAlreadyExists`, `privateValueMissing`,
`privateHashNotFound` belong to the private-data variant.  `castFailure` is
a modelling device for a JS dynamic cast (`JSON.parse(...) as T`) applied to
a record of the wrong kind; it is unreachable from well-formed states. -/
inductive CErr where
  | alreadyInitiated
  | notInitiated
  | eventNotAvailable
  | electionNotFound (id : String)
  | voterNotFound (id : String)
  | alreadyVoted (electionId : String)
  | wrongCandidateCount
  | candidateNotFound (id : String)
  | candidateNotInElection (id : String)
  | voterAlreadyExists (id : String)
  | notVotedYet
  | notVotedOnElection
  | castFailure (expected : String)
  | privAlreadyExists (id : String)
  | privateValueMissing
  | privateHashNotFound (id : String)
deriving DecidableEq

/-- Embedding of the private helper `validateInit`: query all records of type
`event`; if none exist, throw; otherwise return `existingEvent[0]`.  Note
that in the source the query result elements are the `{key, record}`
envelopes produced by `queryWithQueryString`, so the returned value, although
annotated `Event`, is such an envelope. -/
def validateInit (l : Ledger) : Except CErr (LKey × Record) :=
  match queryEvents l with
  | [] => .error .notInitiated
  | x :: _ => .ok x

/-- JavaScript field access `event.startDate` performed by `emitVote` on the
value returned by `validateInit`.  That value is a `{key, record}` envelope
(see `validateInit`), which has no `startDate` field, so the access yields
`undefined`; `new Date(undefined)` is an Invalid Date and its `getTime()` is
`NaN`.  The resulting millisecond value is modelled as `none`. -/
def envelopeStartDateMs (_ : LKey × Record) : Option Int := none

/-- JavaScript field access `event.endDate` on the `{key, record}` envelope
returned by `validateInit`; as with `envelopeStartDateMs` the field is
absent, so `new Date(event.endDate).getTime()` is `NaN`, modelled `none`. -/
def envelopeEndDateMs (_ : LKey × Record) : Option Int := none

/-- JavaScript `<` between a number and a possibly-`NaN` number: any
comparison with `NaN` is `false`. -/
def jsLt (a : Int) : Option Int → Bool
  | some b => decide (a < b)
  | none => false

/-- JavaScript `>=` between a number and a possibly-`NaN` number: any
comparison with `NaN` is `false`. -/
def jsGe (a : Int) : Option Int → Bool
  | some b => decide (b ≤ a)
  | none => false

/-- The event part of the `initContract` payload (interface `EventData`). -/
structure EventData where
  id : String
  startDate : Int
  endDate : Int
deriving DecidableEq

/-- One election of the `initContract` payload (interface `ElectionData`). -/
structure ElectionData where
  id : String
  eventId : String
  electionType : String
  maxVotes : Nat
deriving DecidableEq

/-- One candidate of the `initContract` payload (interface
`CandidateData`). -/
structure CandidateData where
  id : String
  electionId : String
  firstName : String
  lastName : String
  imageUrl : String
deriving DecidableEq

/-- The full `initContract` payload (interface `InitData`). -/
structure InitData where
  event : EventData
  elections : List ElectionData
  candidates : List CandidateData
deriving DecidableEq

/-- The `electionList.forEach` loop of `initContract`: write each election at
key `election-<id>` (the `Election` constructor copies the payload fields and
sets the `type` discriminator). -/
def putElections (l : Ledger) (es : List ElectionData) : Ledger :=
  es.foldl
    (fun acc elem =>
      putState acc (.election elem.id)
        (.election ⟨elem.id, elem.eventId, elem.electionType, elem.maxVotes⟩))
    l

/-- The `candidateList.forEach` loop of `initContract`: write each candidate
at key `candidate-<id>` (the `VotableItem` constructor sets `voteCount` to
0). -/
def putCandidates (l : Ledger) (cs : List CandidateData) : Ledger :=
  cs.foldl
    (fun acc elem =>
      putState acc (.candidate elem.id)
        (.candidate ⟨elem.id, elem.electionId, elem.firstName, elem.lastName,
          elem.imageUrl, 0⟩))
    l

/-- Embedding of the `initContract` transaction: fail when any record of type
`event` already exists; otherwise write the event, then every election, then
every candidate. -/
def initContract (l : Ledger) (d : InitData) : Except CErr (Ledger × Bool) :=
  match queryEvents l with
  | _ :: _ => .error .alreadyInitiated
  | [] =>
      let ev : EventRec := ⟨d.event.id, d.event.startDate, d.event.endDate⟩
      .ok (putCandidates
             (putElections (putState l (.event ev.id) (.event ev)) d.elections)
             d.candidates, true)

/-- The `createVoter` payload (interface `VoterData`). -/
structure VoterData where
  id : String
  firstName : String
  lastName : String
deriving DecidableEq

/-- Embedding of the `createVoter` transaction: fail when a record already
exists at `voter-<id>`; otherwise write a fresh `Voter` whose
`votedElectionIds` is empty.  The handler performs no initialization
check. -/
def createVoter (l : Ledger) (d : VoterData) : Except CErr (Ledger × Bool) :=
  match getState l (.voter d.id) with
  | some _ => .error (.voterAlreadyExists d.id)
  | none =>
      .ok (putState l (.voter d.id) (.voter ⟨d.id, d.firstName, d.lastName, []⟩),
           true)

/-- The candidate loop of `emitVote` (lines 306-324): for each candidate id
in order, load the record at `candidate-<id>` (NotFound when absent), check
`votableItem.electionId != electionId` (BadRequest on mismatch) and collect
the item. -/
def collectVotables (l : Ledger) (electionId : String) :
    List String → Except CErr (List VotableItem)
  | [] => .ok []
  | cid :: rest =>
      match getState l (.candidate cid) with
      | none => .error (.candidateNotFound cid)
      | some r =>
          match r with
          | .candidate item =>
              if item.electionId = electionId then
                match collectVotables l electionId rest with
                | .error e => .error e
                | .ok items => .ok (item :: items)
              else .error (.candidateNotInElection cid)
          | _ => .error (.castFailure "VotableItem")

/-- Embedding of the `emitVote` transaction.  `now` is `Date.now()` and
`freshVoteId` is the id the `Vote` constructor draws from `Math.random()`;
`candidateIds` is the parsed candidate id list.  Order of checks follows the
source: initialization, voting window (computed, per `envelopeStartDateMs`,
from the absent date fields of the query envelope), election existence,
voter existence, duplicate vote (membership of `election.id`, the stored
record field, in the voter record list), candidate count against
`election.maxVotes`, then the candidate loop; finally the voter record is
rewritten at `voter-<voter.id>` with the election id appended and a new
`Vote` is written at `vote-<vote.id>` with `voterId = voter.id` and
`electionId = election.id`. -/
def emitVote (l : Ledger) (now : Int) (freshVoteId electionId voterId : String)
    (candidateIds : List String) : Except CErr (Ledger × Bool) :=
  match validateInit l with
  | .error e => .error e
  | .ok ev =>
      if jsLt now (envelopeStartDateMs ev) || jsGe now (envelopeEndDateMs ev) then
        .error .eventNotAvailable
      else
        match getState l (.election electionId) with
        | none => .error (.electionNotFound electionId)
        | some electionRecord =>
            match getState l (.voter voterId) with
            | none => .error (.voterNotFound voterId)
            | some voterRecord =>
                match electionRecord, voterRecord with
                | .election election, .voter voter =>
                    if election.id ∈ voter.votedElectionIds then
                      .error (.alreadyVoted election.id)
                    else if candidateIds.length ≠ election.maxVotes then
                      .error .wrongCandidateCount
                    else
                      match collectVotables l electionId candidateIds with
                      | .error e => .error e
                      | .ok votables =>
                          let voter' : VoterRec :=
                            { voter with
                              votedElectionIds :=
                                voter.votedElectionIds ++ [election.id] }
                          let l1 := putState l (.voter voter.id) (.voter voter')
                          let vote : VoteRec :=
                            ⟨freshVoteId, election.id, voter.id, votables⟩
                          .ok (putState l1 (.vote vote.id) (.vote vote), true)
                | _, _ => .error (.castFailure "Election or Voter")

/-- Embedding of the rich query `{electionId, voterId, type: 'vote'}` issued
by `readVote`: all stored records of type `vote` whose `electionId` and
`voterId` fields match, as `{key, record}` envelopes. -/
def voteQuery (l : Ledger) (electionId voterId : String) :
    List (LKey × Record) :=
  l.filter (fun p =>
    match p.2 with
    | .vote v => decide (v.electionId = electionId) && decide (v.voterId = voterId)
    | _ => false)

/-- Embedding of the `readVote` transaction: initialization check, election
and voter existence, then the `votedElectionIds` emptiness check ("has not
voted yet"), then the vote query with its own emptiness check ("has not
voted yet on this election"); on success the first query envelope is
returned. -/
def readVote (l : Ledger) (electionId voterId : String) :
    Except CErr (LKey × Record) :=
  match validateInit l with
  | .error e => .error e
  | .ok _ =>
      match getState l (.election electionId) with
      | none => .error (.electionNotFound electionId)
      | some _ =>
          match getState l (.voter voterId) with
          | none => .error (.voterNotFound voterId)
          | some voterRecord =>
              match voterRecord with
              | .voter voter =>
                  if voter.votedElectionIds.isEmpty then .error .notVotedYet
                  else
                    match voteQuery l electionId voterId with
                    | [] => .error .notVotedOnElection
                    | x :: _ => .ok x
              | _ => .error (.castFailure "Voter")

/-- Fabric commit semantics: a transaction either commits all of its writes
or, when the handler throws, none of them. -/
def commitTx (r : Except CErr (Ledger × Bool)) (l : Ledger) : Ledger :=
  match r with
  | .ok (l', _) => l'
  | .error _ => l

/-- Modelled from the spec: `isVotingOpen(event, now)` is true iff
`startDate ≤ now < endDate`.  The source has no such named helper; this is
the window predicate the spec describes, used to compare against what the
code computes. -/
def isVotingOpenSpec (ev : EventRec) (now : Int) : Bool :=
  decide (ev.startDate ≤ now) && decide (now < ev.endDate)

end Boxting

namespace Boxting

/-! ### Basic ledger lemmas -/

theorem getState_putState_self (l : Ledger) (k : LKey) (r : Record) :
    getState (putState l k r) k = some r := by
  simp [putState, getState]

theorem getState_removeKey_ne (l : Ledger) (k k' : LKey) (h : k ≠ k') :
    getState (removeKey l k) k' = getState l k' := by
  induction l with
  | nil => rfl
  | cons p rest ih =>
      obtain ⟨k0, r0⟩ := p
      simp only [removeKey, List.filter_cons, ne_eq, decide_not] at ih ⊢
      by_cases hk : k0 = k
      · have h0 : ¬ (k0 = k') := fun hc => h (hk.symm.trans hc)
        simp [hk, getState, h0, ih, h]
      · by_cases hk' : k0 = k'
        · have h1 : ¬ (k' = k) := fun hc => hk (hk'.trans hc)
          simp [hk', h1, getState, ih]
        · simp [hk, hk', getState, ih]

theorem getState_putState_ne (l : Ledger) (k k' : LKey) (r : Record)
    (h : k ≠ k') : getState (putState l k r) k' = getState l k' := by
  simp [putState, getState, h, getState_removeKey_ne l k k' h]

theorem mem_removeKey {p : LKey × Record} {l : Ledger} {k : LKey} :
    p ∈ removeKey l k ↔ p ∈ l ∧ p.1 ≠ k := by
  simp [removeKey, List.mem_filter]

theorem mem_putState {p : LKey × Record} {l : Ledger} {k : LKey} {r : Record} :
    p ∈ putState l k r ↔ p = (k, r) ∨ (p ∈ l ∧ p.1 ≠ k) := by
  simp [putState, mem_removeKey]

theorem mem_putState_of_mem {p : LKey × Record} {l : Ledger} {k : LKey}
    {r : Record} (hp : p ∈ l) (hne : p.1 ≠ k) : p ∈ putState l k r :=
  mem_putState.mpr (Or.inr ⟨hp, hne⟩)

theorem getState_eq_some_mem {l : Ledger} {k : LKey} {r : Record}
    (h : getState l k = some r) : (k, r) ∈ l := by
  induction l with
  | nil => simp [getState] at h
  | cons p rest ih =>
      obtain ⟨k0, r0⟩ := p
      by_cases hk : k0 = k
      · subst hk
        simp [getState] at h
        subst h; exact List.mem_cons_self _ _
      · simp only [getState, if_neg hk] at h
        exact List.mem_cons_of_mem _ (ih h)

theorem removeKey_sublist (l : Ledger) (k : LKey) :
    (removeKey l k).Sublist l :=
  List.filter_sublist l

/-! ### Vote counting -/

/-- True when a record is a vote of the given (voter, election) pair. -/
def isVoteFor (voterId electionId : String) : Record → Bool
  | .vote vr => decide (vr.voterId = voterId) && decide (vr.electionId = electionId)
  | _ => false

/-- Number of stored Vote records with the given (voter, election) pair. -/
def countVotesFor (l : Ledger) (voterId electionId : String) : Nat :=
  l.countP (fun p => isVoteFor voterId electionId p.2)

theorem countVotesFor_removeKey_le (l : Ledger) (k : LKey)
    (voterId electionId : String) :
    countVotesFor (removeKey l k) voterId electionId ≤
      countVotesFor l voterId electionId :=
  (removeKey_sublist l k).countP_le _

theorem countVotesFor_putState (l : Ledger) (k : LKey) (r : Record)
    (voterId electionId : String) :
    countVotesFor (putState l k r) voterId electionId ≤
      (if isVoteFor voterId electionId r then 1 else 0) +
        countVotesFor l voterId electionId := by
  have h1 : countVotesFor (putState l k r) voterId electionId =
      (if isVoteFor voterId electionId r then 1 else 0) +
        countVotesFor (removeKey l k) voterId electionId := by
    simp only [countVotesFor, putState, List.countP_cons]
    by_cases h : isVoteFor voterId electionId r <;> simp [h, Nat.add_comm]
  rw [h1]
  exact Nat.add_le_add_left (countVotesFor_removeKey_le l k voterId electionId) _

theorem countVotesFor_eq_zero {l : Ledger} {voterId electionId : String}
    (h : ∀ p ∈ l, isVoteFor voterId electionId p.2 = false) :
    countVotesFor l voterId electionId = 0 :=
  List.countP_eq_zero.mpr (by intro p hp; simp [h p hp])

theorem pos_of_mem_vote {l : Ledger} {p : LKey × Record}
    {voterId electionId : String} (hp : p ∈ l)
    (hv : isVoteFor voterId electionId p.2 = true) :
    0 < countVotesFor l voterId electionId := by
  unfold countVotesFor
  exact List.countP_pos_iff.mpr ⟨p, hp, hv⟩

/-! ### Query lemmas -/

theorem queryEvents_ne_nil_of_mem {l : Ledger} {p : LKey × Record}
    (hp : p ∈ l) (he : p.2.isEvent = true) : queryEvents l ≠ [] := by
  have : p ∈ queryEvents l := List.mem_filter.mpr ⟨hp, he⟩
  exact List.ne_nil_of_mem this

theorem exists_event_of_queryEvents_ne_nil {l : Ledger}
    (h : queryEvents l ≠ []) : ∃ p ∈ l, p.2.isEvent = true := by
  obtain ⟨p, hp⟩ := List.exists_mem_of_ne_nil _ h
  have := List.mem_filter.mp hp
  exact ⟨p, this.1, this.2⟩

end Boxting

namespace Boxting

/-! ### Concrete example states

These states are obtained by running the embedded transactions from the
empty ledger; they witness that the hypotheses of the claim theorems are
satisfiable. -/

/-- Example payload: event window 1000..2000, one single-vote election `e1`
with candidate `c1`. -/
def exInit : InitData :=
  ⟨⟨"ev1", 1000, 2000⟩, [⟨"e1", "ev1", "single", 1⟩],
   [⟨"c1", "e1", "John", "Doe", "img"⟩]⟩

/-- An init payload with an empty election list (and no candidates). -/
def exInitEmpty : InitData := ⟨⟨"ev1", 1000, 2000⟩, [], []⟩

/-- Example voter payload. -/
def exVoterData : VoterData := ⟨"v1", "Jane", "Roe"⟩

/-- State after `initContract` with `exInit`. -/
def exampleLedger1 : Ledger := commitTx (initContract [] exInit) []

/-- State after additionally registering voter `v1`. -/
def exampleLedger2 : Ledger :=
  commitTx (createVoter exampleLedger1 exVoterData) exampleLedger1

/-- State after `v1` voted for `c1` in election `e1`. -/
def exampleLedger3 : Ledger :=
  commitTx (emitVote exampleLedger2 1500 "vid1" "e1" "v1" ["c1"]) exampleLedger2

/-- Second example payload: elections `e1` (maxVotes 2) and `e2`
(maxVotes 1), candidate `c1` in `e1` and candidate `c2` in `e2`. -/
def exInitB : InitData :=
  ⟨⟨"ev1", 1000, 2000⟩,
   [⟨"e1", "ev1", "multiple", 2⟩, ⟨"e2", "ev1", "single", 1⟩],
   [⟨"c1", "e1", "Ann", "Lee", "img"⟩, ⟨"c2", "e2", "Bob", "Kim", "img"⟩]⟩

/-- State after `initContract` with `exInitB`. -/
def exampleLedgerB1 : Ledger := commitTx (initContract [] exInitB) []

/-- State after additionally registering voter `v1`. -/
def exampleLedgerB2 : Ledger :=
  commitTx (createVoter exampleLedgerB1 exVoterData) exampleLedgerB1

/-- State after `v1` voted in election `e2` (but not in `e1`). -/
def exampleLedgerB3 : Ledger :=
  commitTx (emitVote exampleLedgerB2 1500 "vidB" "e2" "v1" ["c2"]) exampleLedgerB2

/-! ### Reachability and the inductive invariant -/

/-- One committed state-changing transaction.  The read-only handlers
(`readCandidate`, `getElectionResults`, `readVote`, `checkVoteElection`)
issue no writes, so the mutating surface is exactly these three. -/
inductive Step : Ledger → Ledger → Prop
  | init (d : InitData) (l l' : Ledger) (b : Bool)
      (h : initContract l d = .ok (l', b)) : Step l l'
  | newVoter (d : VoterData) (l l' : Ledger) (b : Bool)
      (h : createVoter l d = .ok (l', b)) : Step l l'
  | castVote (now : Int) (freshVoteId electionId voterId : String)
      (candidateIds : List String) (l l' : Ledger) (b : Bool)
      (h : emitVote l now freshVoteId electionId voterId candidateIds =
             .ok (l', b)) : Step l l'

/-- Ledger states reachable from the empty world state by committed
transactions. -/
def Reachable (l : Ledger) : Prop := Relation.ReflTransGen Step [] l

/-- Well-formedness of one binding: the key namespace matches the record
kind written there by the contract, and for election and voter records the
stored id equals the key id (the source writes at `election-${election.id}`
and `voter-${voter.id}` with the id field copied from the key id at
creation). -/
def kindOk : LKey → Record → Prop
  | .event _, .event _ => True
  | .election i, .election e => e.id = i
  | .candidate _, .candidate _ => True
  | .voter i, .voter w => w.id = i
  | .vote _, .vote _ => True
  | _, _ => False

/-- The inductive invariant of reachable states: bindings are well-formed,
each (voter, election) pair has at most one Vote record, every Vote record
is mirrored in its voter record votedElectionIds, a voted election id
implies the contract is initialized and the election record exists, and
every candidate record still has voteCount 0. -/
structure Inv (l : Ledger) : Prop where
  wf : ∀ p ∈ l, kindOk p.1 p.2
  voteOnce : ∀ voterId electionId, countVotesFor l voterId electionId ≤ 1
  voteSync : ∀ p ∈ l, ∀ vr : VoteRec, p.2 = .vote vr →
      ∃ w : VoterRec, getState l (.voter vr.voterId) = some (.voter w) ∧
        vr.electionId ∈ w.votedElectionIds
  votedInit : ∀ p ∈ l, ∀ w : VoterRec, p.2 = .voter w →
      ∀ e ∈ w.votedElectionIds,
        queryEvents l ≠ [] ∧
        ∃ er : ElectionRec, getState l (.election e) = some (.election er)
  candZero : ∀ p ∈ l, ∀ c : VotableItem, p.2 = .candidate c → c.voteCount = 0

/-! ### Inversion and unfolding lemmas for the handlers -/

theorem initContract_ok_inv {l : Ledger} {d : InitData} {l' : Ledger}
    {b : Bool} (h : initContract l d = .ok (l', b)) :
    queryEvents l = [] ∧
    l' = putCandidates
           (putElections
             (putState l (.event d.event.id)
               (.event ⟨d.event.id, d.event.startDate, d.event.endDate⟩))
             d.elections)
           d.candidates := by
  unfold initContract at h
  cases hq : queryEvents l with
  | cons x xs => rw [hq] at h; simp at h
  | nil =>
      rw [hq] at h
      simp only [Except.ok.injEq, Prod.mk.injEq] at h
      exact ⟨rfl, h.1.symm⟩

theorem createVoter_ok_inv {l : Ledger} {d : VoterData} {l' : Ledger}
    {b : Bool} (h : createVoter l d = .ok (l', b)) :
    getState l (.voter d.id) = none ∧
    l' = putState l (.voter d.id) (.voter ⟨d.id, d.firstName, d.lastName, []⟩) := by
  unfold createVoter at h
  cases hg : getState l (.voter d.id) with
  | some r => rw [hg] at h; simp at h
  | none =>
      rw [hg] at h
      simp only [Except.ok.injEq, Prod.mk.injEq] at h
      exact ⟨rfl, h.1.symm⟩

/-- Once the initialization, window, election and voter lookups are pinned
down, `emitVote` reduces to its duplicate-vote, count and candidate
checks.  The window test never fires: it compares `now` against the `NaN`
obtained from the missing date fields of the query envelope. -/
theorem emitVote_eq_of_checks
    {l : Ledger} {electionId voterId : String} {er : ElectionRec}
    {w : VoterRec} (hq : queryEvents l ≠ [])
    (hel : getState l (.election electionId) = some (.election er))
    (hv : getState l (.voter voterId) = some (.voter w))
    (now : Int) (freshVoteId : String) (candidateIds : List String) :
    emitVote l now freshVoteId electionId voterId candidateIds =
      if er.id ∈ w.votedElectionIds then .error (.alreadyVoted er.id)
      else if candidateIds.length ≠ er.maxVotes then .error .wrongCandidateCount
      else
        match collectVotables l electionId candidateIds with
        | .error e => .error e
        | .ok votables =>
            .ok (putState
                   (putState l (.voter w.id)
                     (.voter { w with votedElectionIds :=
                                 w.votedElectionIds ++ [er.id] }))
                   (.vote freshVoteId) (.vote ⟨freshVoteId, er.id, w.id, votables⟩),
                 true) := by
  unfold emitVote validateInit
  cases hqe : queryEvents l with
  | nil => exact absurd hqe hq
  | cons x xs =>
      simp only [jsLt, jsGe, envelopeStartDateMs, envelopeEndDateMs,
        Bool.or_self, Bool.false_eq_true, if_false, hel, hv]

theorem emitVote_ok_inv {l : Ledger} {now : Int}
    {freshVoteId electionId voterId : String} {candidateIds : List String}
    {l' : Ledger} {b : Bool}
    (h : emitVote l now freshVoteId electionId voterId candidateIds =
           .ok (l', b)) :
    ∃ (er : ElectionRec) (w : VoterRec) (votables : List VotableItem),
      queryEvents l ≠ [] ∧
      getState l (.election electionId) = some (.election er) ∧
      getState l (.voter voterId) = some (.voter w) ∧
      er.id ∉ w.votedElectionIds ∧
      candidateIds.length = er.maxVotes ∧
      collectVotables l electionId candidateIds = .ok votables ∧
      l' = putState
             (putState l (.voter w.id)
               (.voter { w with votedElectionIds :=
                           w.votedElectionIds ++ [er.id] }))
             (.vote freshVoteId) (.vote ⟨freshVoteId, er.id, w.id, votables⟩) := by
  unfold emitVote validateInit at h
  cases hqe : queryEvents l with
  | nil => rw [hqe] at h; simp at h
  | cons x xs =>
      rw [hqe] at h
      simp only [jsLt, jsGe, envelopeStartDateMs, envelopeEndDateMs,
        Bool.or_self, Bool.false_eq_true, if_false] at h
      cases hel : getState l (.election electionId) with
      | none => rw [hel] at h; simp at h
      | some r1 =>
          rw [hel] at h
          cases hv : getState l (.voter voterId) with
          | none => rw [hv] at h; simp at h
          | some r2 =>
              rw [hv] at h
              cases r1 with
              | election er =>
                  cases r2 with
                  | voter w =>
                      by_cases hmem : er.id ∈ w.votedElectionIds
                      · simp [hmem] at h
                      · by_cases hlen : candidateIds.length = er.maxVotes
                        · cases hc : collectVotables l electionId candidateIds with
                          | error e => simp [hmem, hlen, hc] at h
                          | ok votables =>
                              simp only [hmem, hlen, hc, if_neg, if_pos,
                                ne_eq, not_false_eq_true, not_true_eq_false,
                                if_false, ite_not, Except.ok.injEq,
                                Prod.mk.injEq] at h
                              exact ⟨er, w, votables, by simp, rfl, rfl,
                                hmem, hlen, rfl, h.1.symm⟩
                        · simp [hmem, hlen] at h
                  | event e0 => simp at h
                  | election e0 => simp at h
                  | candidate c0 => simp at h
                  | vote v0 => simp at h
              | event e0 => cases r2 <;> simp at h
              | candidate c0 => cases r2 <;> simp at h
              | voter w0 => cases r2 <;> simp at h
              | vote v0 => cases r2 <;> simp at h

end Boxting

namespace Boxting

/-! ### Consequences of well-formedness -/

theorem isVoteFor_iff {v e : String} {r : Record} :
    isVoteFor v e r = true ↔
      ∃ vr : VoteRec, r = .vote vr ∧ vr.voterId = v ∧ vr.electionId = e := by
  cases r <;> simp [isVoteFor]

theorem voterId_of_getState {l : Ledger}
    (hwf : ∀ p ∈ l, kindOk p.1 p.2) {i : String} {w : VoterRec}
    (h : getState l (.voter i) = some (.voter w)) : w.id = i :=
  hwf _ (getState_eq_some_mem h)

theorem electionId_of_getState {l : Ledger}
    (hwf : ∀ p ∈ l, kindOk p.1 p.2) {i : String} {er : ElectionRec}
    (h : getState l (.election i) = some (.election er)) : er.id = i :=
  hwf _ (getState_eq_some_mem h)

theorem queryEvents_putState_ne {l : Ledger} {k : LKey} {r : Record}
    (hwf : ∀ p ∈ l, kindOk p.1 p.2) (hq : queryEvents l ≠ [])
    (hk : ∀ i, k ≠ LKey.event i) : queryEvents (putState l k r) ≠ [] := by
  obtain ⟨p0, hp0, he0⟩ := exists_event_of_queryEvents_ne_nil hq
  have hw := hwf p0 hp0
  obtain ⟨k0, r0⟩ := p0
  cases r0 with
  | event e0 =>
      cases k0 with
      | event j =>
          exact queryEvents_ne_nil_of_mem
            (mem_putState_of_mem hp0 (fun hc => hk j hc.symm)) rfl
      | election j => simp [kindOk] at hw
      | candidate j => simp [kindOk] at hw
      | voter j => simp [kindOk] at hw
      | vote j => simp [kindOk] at hw
  | election e0 => simp [Record.isEvent] at he0
  | candidate e0 => simp [Record.isEvent] at he0
  | voter e0 => simp [Record.isEvent] at he0
  | vote e0 => simp [Record.isEvent] at he0

/-! ### Fold lemmas for the initialization writes -/

theorem putElections_cons (l : Ledger) (e : ElectionData)
    (es : List ElectionData) :
    putElections l (e :: es) =
      putElections
        (putState l (.election e.id)
          (.election ⟨e.id, e.eventId, e.electionType, e.maxVotes⟩)) es := rfl

theorem putCandidates_cons (l : Ledger) (c : CandidateData)
    (cs : List CandidateData) :
    putCandidates l (c :: cs) =
      putCandidates
        (putState l (.candidate c.id)
          (.candidate ⟨c.id, c.electionId, c.firstName, c.lastName,
            c.imageUrl, 0⟩)) cs := rfl

theorem mem_putElections {p : LKey × Record} {es : List ElectionData} :
    ∀ {l : Ledger}, p ∈ putElections l es →
      p ∈ l ∨ ∃ elem ∈ es,
        p = (.election elem.id,
             .election ⟨elem.id, elem.eventId, elem.electionType,
               elem.maxVotes⟩) := by
  induction es with
  | nil => intro l h; exact Or.inl h
  | cons e es ih =>
      intro l h
      rw [putElections_cons] at h
      rcases ih h with h' | ⟨elem, hmem, he⟩
      · rcases mem_putState.mp h' with he | ⟨hp, _⟩
        · exact Or.inr ⟨e, List.mem_cons_self _ _, he⟩
        · exact Or.inl hp
      · exact Or.inr ⟨elem, List.mem_cons_of_mem _ hmem, he⟩

theorem mem_putCandidates {p : LKey × Record} {cs : List CandidateData} :
    ∀ {l : Ledger}, p ∈ putCandidates l cs →
      p ∈ l ∨ ∃ elem ∈ cs,
        p = (.candidate elem.id,
             .candidate ⟨elem.id, elem.electionId, elem.firstName,
               elem.lastName, elem.imageUrl, 0⟩) := by
  induction cs with
  | nil => intro l h; exact Or.inl h
  | cons c cs ih =>
      intro l h
      rw [putCandidates_cons] at h
      rcases ih h with h' | ⟨elem, hmem, he⟩
      · rcases mem_putState.mp h' with he | ⟨hp, _⟩
        · exact Or.inr ⟨c, List.mem_cons_self _ _, he⟩
        · exact Or.inl hp
      · exact Or.inr ⟨elem, List.mem_cons_of_mem _ hmem, he⟩

theorem mem_putElections_of_mem {p : LKey × Record} {es : List ElectionData}
    (hne : ∀ i, p.1 ≠ .election i) :
    ∀ {l : Ledger}, p ∈ l → p ∈ putElections l es := by
  induction es with
  | nil => intro l h; exact h
  | cons e es ih =>
      intro l h
      rw [putElections_cons]
      exact ih (mem_putState_of_mem h (hne e.id))

theorem mem_putCandidates_of_mem {p : LKey × Record} {cs : List CandidateData}
    (hne : ∀ i, p.1 ≠ .candidate i) :
    ∀ {l : Ledger}, p ∈ l → p ∈ putCandidates l cs := by
  induction cs with
  | nil => intro l h; exact h
  | cons c cs ih =>
      intro l h
      rw [putCandidates_cons]
      exact ih (mem_putState_of_mem h (hne c.id))

end Boxting

namespace Boxting

/-! ### Preservation of the invariant -/

theorem voter_empty_of_uninit {l : Ledger} (hInv : Inv l)
    (hq : queryEvents l = []) :
    ∀ p ∈ l, ∀ w : VoterRec, p.2 = .voter w → w.votedElectionIds = [] := by
  intro p hp w hpw
  by_contra hne
  obtain ⟨e, he⟩ := List.exists_mem_of_ne_nil _ hne
  exact (hInv.votedInit p hp w hpw e he).1 hq

theorem no_vote_of_uninit {l : Ledger} (hInv : Inv l)
    (hq : queryEvents l = []) :
    ∀ p ∈ l, ∀ vr : VoteRec, p.2 = .vote vr → False := by
  intro p hp vr hpv
  obtain ⟨w, hg, hm⟩ := hInv.voteSync p hp vr hpv
  have hempty := voter_empty_of_uninit hInv hq _ (getState_eq_some_mem hg) w rfl
  rw [hempty] at hm
  exact absurd hm (List.not_mem_nil _)

theorem inv_initContract {l l' : Ledger} {d : InitData} {b : Bool}
    (hInv : Inv l) (h : initContract l d = .ok (l', b)) : Inv l' := by
  obtain ⟨hq, hl'⟩ := initContract_ok_inv h
  have hmem : ∀ p ∈ l', p ∈ l ∨
      (p = (.event d.event.id,
            .event ⟨d.event.id, d.event.startDate, d.event.endDate⟩)) ∨
      (∃ elem ∈ d.elections,
        p = (.election elem.id,
             .election ⟨elem.id, elem.eventId, elem.electionType,
               elem.maxVotes⟩)) ∨
      (∃ elem ∈ d.candidates,
        p = (.candidate elem.id,
             .candidate ⟨elem.id, elem.electionId, elem.firstName,
               elem.lastName, elem.imageUrl, 0⟩)) := by
    intro p hp
    rw [hl'] at hp
    rcases mem_putCandidates hp with hp1 | hc
    · rcases mem_putElections hp1 with hp2 | he
      · rcases mem_putState.mp hp2 with he | ⟨hp3, _⟩
        · exact Or.inr (Or.inl he)
        · exact Or.inl hp3
      · exact Or.inr (Or.inr (Or.inl he))
    · exact Or.inr (Or.inr (Or.inr hc))
  have hvoterEmpty := voter_empty_of_uninit hInv hq
  have hnovote := no_vote_of_uninit hInv hq
  constructor
  case wf =>
    intro p hp
    rcases hmem p hp with h1 | h2 | ⟨elem, _, h3⟩ | ⟨elem, _, h4⟩
    · exact hInv.wf p h1
    · subst h2; trivial
    · subst h3; exact rfl
    · subst h4; trivial
  case voteOnce =>
    intro v e
    have hz : countVotesFor l' v e = 0 := by
      apply countVotesFor_eq_zero
      intro p hp
      rcases hmem p hp with h1 | h2 | ⟨elem, _, h3⟩ | ⟨elem, _, h4⟩
      · cases hveq : isVoteFor v e p.2 with
        | false => rfl
        | true =>
            obtain ⟨vr, hvr, _, _⟩ := isVoteFor_iff.mp hveq
            exact (hnovote p h1 vr hvr).elim
      · subst h2; rfl
      · subst h3; rfl
      · subst h4; rfl
    exact le_of_eq_of_le hz (Nat.zero_le 1)
  case voteSync =>
    intro p hp vr hpv
    rcases hmem p hp with h1 | h2 | ⟨elem, _, h3⟩ | ⟨elem, _, h4⟩
    · exact (hnovote p h1 vr hpv).elim
    · subst h2; simp at hpv
    · subst h3; simp at hpv
    · subst h4; simp at hpv
  case votedInit =>
    intro p hp w hpw e he
    rcases hmem p hp with h1 | h2 | ⟨elem, _, h3⟩ | ⟨elem, _, h4⟩
    · rw [hvoterEmpty p h1 w hpw] at he
      exact absurd he (List.not_mem_nil _)
    · subst h2; simp at hpw
    · subst h3; simp at hpw
    · subst h4; simp at hpw
  case candZero =>
    intro p hp c hpc
    rcases hmem p hp with h1 | h2 | ⟨elem, _, h3⟩ | ⟨elem, _, h4⟩
    · exact hInv.candZero p h1 c hpc
    · subst h2; simp at hpc
    · subst h3; simp at hpc
    · subst h4
      injection hpc with h5
      subst h5
      rfl

theorem inv_createVoter {l l' : Ledger} {d : VoterData} {b : Bool}
    (hInv : Inv l) (h : createVoter l d = .ok (l', b)) : Inv l' := by
  obtain ⟨hg, hl'⟩ := createVoter_ok_inv h
  subst hl'
  constructor
  case wf =>
    intro p hp
    rcases mem_putState.mp hp with he | ⟨hp1, _⟩
    · subst he; trivial
    · exact hInv.wf p hp1
  case voteOnce =>
    intro v e
    have hb := countVotesFor_putState l (.voter d.id)
      (.voter ⟨d.id, d.firstName, d.lastName, []⟩) v e
    simp only [isVoteFor, Bool.false_eq_true, if_false, Nat.zero_add] at hb
    exact le_trans hb (hInv.voteOnce v e)
  case voteSync =>
    intro p hp vr hpv
    rcases mem_putState.mp hp with he | ⟨hp1, _⟩
    · subst he; simp at hpv
    · obtain ⟨w, hg2, hm⟩ := hInv.voteSync p hp1 vr hpv
      have hne : vr.voterId ≠ d.id := by
        intro hc
        rw [hc, hg] at hg2
        cases hg2
      refine ⟨w, ?_, hm⟩
      rw [getState_putState_ne _ _ _ _
        (by simp only [ne_eq, LKey.voter.injEq]; exact fun hc => hne hc.symm)]
      exact hg2
  case votedInit =>
    intro p hp w hpw e he
    rcases mem_putState.mp hp with he2 | ⟨hp1, _⟩
    · subst he2
      injection hpw with h5
      subst h5
      exact absurd he (List.not_mem_nil _)
    · obtain ⟨hq1, er, hel⟩ := hInv.votedInit p hp1 w hpw e he
      refine ⟨queryEvents_putState_ne hInv.wf hq1 (fun i => by simp), er, ?_⟩
      rw [getState_putState_ne _ _ _ _ (by simp)]
      exact hel
  case candZero =>
    intro p hp c hpc
    rcases mem_putState.mp hp with he2 | ⟨hp1, _⟩
    · subst he2; simp at hpc
    · exact hInv.candZero p hp1 c hpc

end Boxting

namespace Boxting

theorem inv_emitVote {l l' : Ledger} {now : Int}
    {freshVoteId electionId voterId : String} {candidateIds : List String}
    {b : Bool} (hInv : Inv l)
    (h : emitVote l now freshVoteId electionId voterId candidateIds =
           .ok (l', b)) : Inv l' := by
  obtain ⟨er, w, votables, hq, hel, hv, hnm, hlen, hcoll, hl'⟩ :=
    emitVote_ok_inv h
  have hwid : w.id = voterId := voterId_of_getState hInv.wf hv
  have herid : er.id = electionId := electionId_of_getState hInv.wf hel
  set w' : VoterRec :=
    { w with votedElectionIds := w.votedElectionIds ++ [er.id] } with hw'
  set voteRec : VoteRec := ⟨freshVoteId, er.id, w.id, votables⟩ with hvr
  set l1 : Ledger := putState l (.voter w.id) (.voter w') with hl1
  have hl2 : l' = putState l1 (.vote freshVoteId) (.vote voteRec) := hl'
  -- auxiliary facts
  have hwf1 : ∀ p ∈ l1, kindOk p.1 p.2 := by
    intro p hp
    rcases mem_putState.mp hp with he | ⟨hp1, _⟩
    · subst he; exact rfl
    · exact hInv.wf p hp1
  have hget : getState l' (.voter w.id) = some (.voter w') := by
    rw [hl2, getState_putState_ne _ _ _ _ (by simp), hl1,
      getState_putState_self]
  have hpres : ∀ x, x ≠ w.id →
      getState l' (.voter x) = getState l (.voter x) := by
    intro x hx
    rw [hl2, getState_putState_ne _ _ _ _ (by simp), hl1,
      getState_putState_ne _ _ _ _
        (by simp only [ne_eq, LKey.voter.injEq]; exact fun hc => hx hc.symm)]
  have helpres : ∀ e2 (er2 : ElectionRec),
      getState l (.election e2) = some (.election er2) →
      getState l' (.election e2) = some (.election er2) := by
    intro e2 er2 hg
    rw [hl2, getState_putState_ne _ _ _ _ (by simp), hl1,
      getState_putState_ne _ _ _ _ (by simp)]
    exact hg
  have hql' : queryEvents l' ≠ [] := by
    rw [hl2]
    exact queryEvents_putState_ne hwf1
      (by rw [hl1]; exact queryEvents_putState_ne hInv.wf hq (fun i => by simp))
      (fun i => by simp)
  -- no existing vote for the (w.id, er.id) pair
  have hnone : ∀ p ∈ l, isVoteFor w.id er.id p.2 = false := by
    intro p hp
    cases hveq : isVoteFor w.id er.id p.2 with
    | false => rfl
    | true =>
        obtain ⟨vr2, hvr2, hvid2, heid2⟩ := isVoteFor_iff.mp hveq
        obtain ⟨w2, hg2, hm2⟩ := hInv.voteSync p hp vr2 hvr2
        rw [hvid2, hwid, hv] at hg2
        injection hg2 with h5
        injection h5 with h6
        rw [← h6] at hm2
        rw [heid2] at hm2
        exact absurd hm2 hnm
  constructor
  case wf =>
    intro p hp
    rw [hl2] at hp
    rcases mem_putState.mp hp with he | ⟨hp1, _⟩
    · subst he; trivial
    · exact hwf1 p hp1
  case voteOnce =>
    intro v e
    rw [hl2]
    have hb1 := countVotesFor_putState l1 (.vote freshVoteId) (.vote voteRec) v e
    have hb2 := countVotesFor_putState l (.voter w.id) (.voter w') v e
    simp only [isVoteFor, Bool.false_eq_true, if_false, Nat.zero_add] at hb2
    rw [← hl1] at hb2
    have hif : (if isVoteFor v e (.vote voteRec) = true then 1 else 0) ≤ 1 := by
      split <;> simp
    by_cases hpair : v = w.id ∧ e = er.id
    · obtain ⟨h1, h2⟩ := hpair
      subst h1; subst h2
      have hz : countVotesFor l w.id er.id = 0 := countVotesFor_eq_zero hnone
      have hb2z : countVotesFor l1 w.id er.id ≤ 0 := le_of_le_of_eq hb2 hz
      have hsum : (if isVoteFor w.id er.id (.vote voteRec) = true then 1 else 0)
          + countVotesFor l1 w.id er.id ≤ 1 := by
        have := Nat.add_le_add hif hb2z
        simpa using this
      exact le_trans hb1 hsum
    · have hfalse : isVoteFor v e (.vote voteRec) = false := by
        cases hveq : isVoteFor v e (.vote voteRec) with
        | false => rfl
        | true =>
            rw [hvr] at hveq
            simp only [isVoteFor, Bool.and_eq_true, decide_eq_true_eq] at hveq
            exact absurd ⟨hveq.1.symm, hveq.2.symm⟩ hpair
      rw [hfalse] at hb1
      simp only [Bool.false_eq_true, if_false, Nat.zero_add] at hb1
      exact le_trans hb1 (le_trans hb2 (hInv.voteOnce v e))
  case voteSync =>
    intro p hp vr hpv
    rw [hl2] at hp
    rcases mem_putState.mp hp with he | ⟨hp1, _⟩
    · subst he
      injection hpv with h5
      subst h5
      refine ⟨w', hget, ?_⟩
      simp [hvr, hw']
    · rcases mem_putState.mp hp1 with he2 | ⟨hp2, _⟩
      · subst he2; simp at hpv
      · obtain ⟨w2, hg2, hm2⟩ := hInv.voteSync p hp2 vr hpv
        by_cases hvid : vr.voterId = w.id
        · rw [hvid, hwid, hv] at hg2
          injection hg2 with h5
          injection h5 with h6
          refine ⟨w', by rw [hvid]; exact hget, ?_⟩
          rw [← h6] at hm2
          simp only [hw', List.mem_append]
          exact Or.inl hm2
        · exact ⟨w2, by rw [hpres vr.voterId hvid]; exact hg2, hm2⟩
  case votedInit =>
    intro p hp w3 hpw e he
    rw [hl2] at hp
    rcases mem_putState.mp hp with he1 | ⟨hp1, _⟩
    · subst he1; simp at hpw
    · rcases mem_putState.mp hp1 with he2 | ⟨hp2, _⟩
      · subst he2
        injection hpw with h5
        subst h5
        rw [hw'] at he
        rcases List.mem_append.mp he with he3 | he4
        · obtain ⟨_, er2, hel2⟩ :=
            hInv.votedInit _ (getState_eq_some_mem hv) w rfl e he3
          exact ⟨hql', er2, helpres _ _ hel2⟩
        · have heq : e = er.id := by simpa using he4
          subst heq
          refine ⟨hql', er, ?_⟩
          rw [herid]
          exact helpres _ _ hel
      · obtain ⟨_, er2, hel2⟩ := hInv.votedInit p hp2 w3 hpw e he
        exact ⟨hql', er2, helpres _ _ hel2⟩
  case candZero =>
    intro p hp c hpc
    rw [hl2] at hp
    rcases mem_putState.mp hp with he1 | ⟨hp1, _⟩
    · subst he1; simp at hpc
    · rcases mem_putState.mp hp1 with he2 | ⟨hp2, _⟩
      · subst he2; simp at hpc
      · exact hInv.candZero p hp2 c hpc

/-- The empty world state satisfies the invariant. -/
theorem inv_nil : Inv ([] : Ledger) := by
  constructor
  case wf => intro p hp; simp at hp
  case voteOnce => intro v e; simp [countVotesFor]
  case voteSync => intro p hp; simp at hp
  case votedInit => intro p hp; simp at hp
  case candZero => intro p hp; simp at hp

/-- Every committed transaction preserves the invariant. -/
theorem inv_step {l l' : Ledger} (hInv : Inv l) (h : Step l l') : Inv l' := by
  cases h with
  | init d l l' b h => exact inv_initContract hInv h
  | newVoter d l l' b h => exact inv_createVoter hInv h
  | castVote now fid eid vid cids l l' b h => exact inv_emitVote hInv h

/-- Every reachable ledger state satisfies the invariant. -/
theorem inv_of_reachable {l : Ledger} (h : Reachable l) : Inv l := by
  induction h with
  | refl => exact inv_nil
  | tail hsteps hstep ih => exact inv_step ih hstep

end Boxting

namespace Boxting

/-! ### Reachability of the example states -/

theorem initStep_ex1 : initContract [] exInit = .ok (exampleLedger1, true) := rfl

theorem voterStep_ex2 :
    createVoter exampleLedger1 exVoterData = .ok (exampleLedger2, true) := rfl

theorem voteStep_ex3 :
    emitVote exampleLedger2 1500 "vid1" "e1" "v1" ["c1"] =
      .ok (exampleLedger3, true) := rfl

theorem reachable_exampleLedger1 : Reachable exampleLedger1 :=
  Relation.ReflTransGen.single (Step.init exInit _ _ true initStep_ex1)

theorem reachable_exampleLedger2 : Reachable exampleLedger2 :=
  reachable_exampleLedger1.tail
    (Step.newVoter exVoterData _ _ true voterStep_ex2)

theorem reachable_exampleLedger3 : Reachable exampleLedger3 :=
  reachable_exampleLedger2.tail
    (Step.castVote 1500 "vid1" "e1" "v1" ["c1"] _ _ true voteStep_ex3)

theorem initStep_exB1 : initContract [] exInitB = .ok (exampleLedgerB1, true) := rfl

theorem voterStep_exB2 :
    createVoter exampleLedgerB1 exVoterData = .ok (exampleLedgerB2, true) := rfl

theorem voteStep_exB3 :
    emitVote exampleLedgerB2 1500 "vidB" "e2" "v1" ["c2"] =
      .ok (exampleLedgerB3, true) := rfl

theorem reachable_exampleLedgerB2 : Reachable exampleLedgerB2 :=
  (Relation.ReflTransGen.single (Step.init exInitB _ _ true initStep_exB1)).tail
    (Step.newVoter exVoterData _ _ true voterStep_exB2)

theorem reachable_exampleLedgerB3 : Reachable exampleLedgerB3 :=
  reachable_exampleLedgerB2.tail
    (Step.castVote 1500 "vidB" "e2" "v1" ["c2"] _ _ true voteStep_exB3)

/-! ### Lemmas about the candidate loop and readVote -/

theorem collectVotables_head_notfound {l : Ledger} {electionId c : String}
    {post : List String} (hc : getState l (.candidate c) = none) :
    collectVotables l electionId (c :: post) =
      .error (.candidateNotFound c) := by
  simp [collectVotables, hc]

theorem collectVotables_head_mismatch {l : Ledger} {electionId c : String}
    {post : List String} {item : VotableItem}
    (hc : getState l (.candidate c) = some (.candidate item))
    (hne : item.electionId ≠ electionId) :
    collectVotables l electionId (c :: post) =
      .error (.candidateNotInElection c) := by
  simp [collectVotables, hc, hne]

/-- An error of the candidate loop propagates over a prefix of candidates
that exist and belong to the election. -/
theorem collectVotables_prefix_error {l : Ledger} {electionId : String}
    {err : CErr} {rest : List String}
    (hrest : collectVotables l electionId rest = .error err) :
    ∀ {pre : List String},
      (∀ x ∈ pre, ∃ item : VotableItem,
        getState l (.candidate x) = some (.candidate item) ∧
        item.electionId = electionId) →
      collectVotables l electionId (pre ++ rest) = .error err := by
  intro pre
  induction pre with
  | nil => intro _; simpa using hrest
  | cons x pre ih =>
      intro hpre
      obtain ⟨item, hg, heq⟩ := hpre x (List.mem_cons_self _ _)
      have hrec := ih (fun y hy => hpre y (List.mem_cons_of_mem _ hy))
      rw [List.cons_append]
      simp [collectVotables, hg, heq, hrec]

/-- Once the initialization, election and voter lookups are pinned down,
`readVote` reduces to its emptiness checks over the voter record and the
vote query. -/
theorem readVote_eq_of_checks {l : Ledger} {electionId voterId : String}
    {rel : Record} {w : VoterRec} (hq : queryEvents l ≠ [])
    (hel : getState l (.election electionId) = some rel)
    (hv : getState l (.voter voterId) = some (.voter w)) :
    readVote l electionId voterId =
      if w.votedElectionIds.isEmpty then .error .notVotedYet
      else
        match voteQuery l electionId voterId with
        | [] => .error .notVotedOnElection
        | x :: _ => .ok x := by
  unfold readVote validateInit
  cases hqe : queryEvents l with
  | nil => exact absurd hqe hq
  | cons x xs => simp only [hel, hv]

/-- In a reachable state, a voter whose record list does not contain an
election id has no Vote record for that election: the vote query is empty. -/
theorem voteQuery_empty_of_not_voted {l : Ledger} (hInv : Inv l)
    {electionId voterId : String} {w : VoterRec}
    (hv : getState l (.voter voterId) = some (.voter w))
    (hnm : electionId ∉ w.votedElectionIds) :
    voteQuery l electionId voterId = [] := by
  rw [voteQuery, List.filter_eq_nil_iff]
  intro p hp
  cases hpr : p.2 with
  | vote vr =>
      simp only [hpr, Bool.and_eq_true, decide_eq_true_eq, not_and]
      intro he hvid
      obtain ⟨w2, hg2, hm2⟩ := hInv.voteSync p hp vr hpr
      rw [hvid, hv] at hg2
      injection hg2 with h5
      injection h5 with h6
      rw [← h6] at hm2
      rw [he] at hm2
      exact absurd hm2 hnm
  | event e0 => simp [hpr]
  | election e0 => simp [hpr]
  | candidate c0 => simp [hpr]
  | voter w0 => simp [hpr]

end Boxting

namespace Boxting

/-! ### Private-data variant (`BoxtingVotingContract`, commit/verify)

Embedding of the private-data contract: the asset lives in a per-caller
organization implicit collection, while the public side only exposes a
content hash of the stored bytes.  The hash function (SHA-256 in the
platform; `crypto.createHash` is an external library) is a parameter `H` of
the model. -/

/-- The `BoxtingVoting` private asset: a single `privateValue` field (the
source class also used by `createBoxtingVoting`). -/
structure BoxtingVoting where
  privateValue : String
deriving DecidableEq

/-- `JSON.stringify` of a `BoxtingVoting` record,
`\x7b"privateValue":"<value>"\x7d`.  Modelled for values that JSON string
escaping leaves unchanged; the claims only depend on equality or inequality
of whole serializations, which are hypotheses of the theorems below. -/
def stringifyBoxtingVoting (a : BoxtingVoting) : String :=
  "\x7b\"privateValue\":\"" ++ a.privateValue ++ "\"\x7d"

/-- A private data store: bindings from (collection name, key) to the stored
bytes. -/
abbrev PrivStore := List ((String × String) × String)

/-- Embedding of `ctx.stub.getPrivateData`. -/
def getPrivateData : PrivStore → String → String → Option String
  | [], _, _ => none
  | (ck, v) :: rest, c, k =>
      if ck = (c, k) then some v else getPrivateData rest c k

/-- Embedding of `ctx.stub.putPrivateData`: overwrite the binding. -/
def putPrivateData (s : PrivStore) (c k v : String) : PrivStore :=
  ((c, k), v) :: s.filter (fun q => decide (q.1 ≠ (c, k)))

/-- Modelled from the spec: the ledger layer automatically publishes a
content hash of the private payload (the spec: "the public ledger only ever
holds a content hash of that same payload (computed automatically by the
ledger layer)").  `getPrivateDataHash` therefore returns `H` of the stored
bytes, absent when no private data exists (the source checks
`pdHashBytes.length === 0`).  Both sides of the later comparison are hex
digests in the source; the common hex encoding is dropped. -/
def getPrivateDataHash (H : String → String) (s : PrivStore) (c k : String) :
    Option String :=
  (getPrivateData s c k).map H

/-- The implicit per-organization collection name
`_implicit_org_<mspid>` built by `getCollectionName`. -/
def collectionNameOf (mspid : String) : String := "_implicit_org_" ++ mspid

/-- Embedding of `boxtingVotingExists`: a non-empty private-data hash. -/
def boxtingVotingExists (H : String → String) (s : PrivStore)
    (mspid id : String) : Bool :=
  (getPrivateDataHash H s (collectionNameOf mspid) id).isSome

/-- Embedding of `createBoxtingVoting`: fail when the asset exists; fail
when the transient map has no `privateValue` entry (the source test
`transientData.size === 0 || !transientData.has('privateValue')` is
equivalent to the lookup failing); otherwise store the serialized
`\x7bprivateValue\x7d` asset in the caller organization collection. -/
def createBoxtingVoting (H : String → String) (s : PrivStore)
    (mspid id : String) (transient : List (String × String)) :
    Except CErr PrivStore :=
  if boxtingVotingExists H s mspid id then .error (.privAlreadyExists id)
  else
    match transient.lookup "privateValue" with
    | none => .error .privateValueMissing
    | some pv =>
        .ok (putPrivateData s (collectionNameOf mspid) id
          (stringifyBoxtingVoting ⟨pv⟩))

/-- Embedding of `verifyBoxtingVoting`: hash the user-supplied object, fail
NotFound when no private-data hash is stored under
`_implicit_org_<mspid>` (the collection name is rebuilt inline in the
source), and otherwise return the boolean hash comparison. -/
def verifyBoxtingVoting (H : String → String) (s : PrivStore)
    (mspid id : String) (objectToVerify : BoxtingVoting) : Except CErr Bool :=
  let hashToVerify := H (stringifyBoxtingVoting objectToVerify)
  match getPrivateDataHash H s ("_implicit_org_" ++ mspid) id with
  | none => .error (.privateHashNotFound id)
  | some actualHash => .ok (decide (hashToVerify = actualHash))

theorem getPrivateData_putPrivateData_self (s : PrivStore) (c k v : String) :
    getPrivateData (putPrivateData s c k v) c k = some v := by
  simp [putPrivateData, getPrivateData]

/-- The example private store: after `create` of `privateValue = "a"` under
organization `org1`. -/
def examplePrivStore : PrivStore :=
  match createBoxtingVoting (fun s => s) [] "org1" "id1"
      [("privateValue", "a")] with
  | .ok s => s
  | .error _ => []

end Boxting

namespace Boxting

/-! ### Claim theorems -/

/-- C1: in every reachable ledger state, every (voter, election) pair has at
most one Vote record; and calling `emitVote` for an election already in the
voter votedElectionIds always fails NotPermitted (already voted) and leaves
the ledger unchanged. -/
theorem C1_vote_uniqueness (l : Ledger) (hreach : Reachable l) :
    (∀ voterId electionId, countVotesFor l voterId electionId ≤ 1) ∧
    (∀ (now : Int) (freshVoteId electionId voterId : String)
        (candidateIds : List String) (w : VoterRec),
      getState l (.voter voterId) = some (.voter w) →
      electionId ∈ w.votedElectionIds →
      emitVote l now freshVoteId electionId voterId candidateIds =
        .error (.alreadyVoted electionId) ∧
      commitTx (emitVote l now freshVoteId electionId voterId candidateIds) l
        = l) := by
  have hInv := inv_of_reachable hreach
  refine ⟨hInv.voteOnce, ?_⟩
  intro now freshVoteId electionId voterId candidateIds w hv hin
  obtain ⟨hq, er, hel⟩ :=
    hInv.votedInit _ (getState_eq_some_mem hv) w rfl electionId hin
  have hid : er.id = electionId := electionId_of_getState hInv.wf hel
  have heq := emitVote_eq_of_checks hq hel hv now freshVoteId candidateIds
  rw [hid] at heq
  rw [heq, if_pos hin]
  exact ⟨rfl, rfl⟩

/-- Witness for C1 at the concrete reachable state in which `v1` has voted
in `e1`. -/
theorem C1_witness :
    countVotesFor exampleLedger3 "v1" "e1" ≤ 1 ∧
    emitVote exampleLedger3 1600 "vid2" "e1" "v1" ["c1"] =
      .error (.alreadyVoted "e1") := by
  have h := C1_vote_uniqueness exampleLedger3 reachable_exampleLedger3
  exact ⟨h.1 "v1" "e1",
    (h.2 1600 "vid2" "e1" "v1" ["c1"] ⟨"v1", "Jane", "Roe", ["e1"]⟩ rfl
      (by decide)).1⟩

/-- C2: the voting-window check of `emitVote` is vacuous, contradicting the
claim.  In the reachable state `exampleLedger2` the stored event window is
[1000, 2000), yet a vote cast at time 2500 (at or after endDate) and one at
time 500 (before startDate) both succeed: `validateInit` returns a
`\x7bkey, record\x7d` envelope whose `startDate` and `endDate` accesses are
`undefined`, so both comparisons are against `NaN` and are false, and the
NotPermitted branch is unreachable. -/
theorem C2_window_not_enforced :
    getState exampleLedger2 (.event "ev1") =
      some (.event ⟨"ev1", 1000, 2000⟩) ∧
    isVotingOpenSpec ⟨"ev1", 1000, 2000⟩ 2500 = false ∧
    (emitVote exampleLedger2 2500 "vid1" "e1" "v1" ["c1"]).isOk = true ∧
    isVotingOpenSpec ⟨"ev1", 1000, 2000⟩ 500 = false ∧
    (emitVote exampleLedger2 500 "vid1" "e1" "v1" ["c1"]).isOk = true :=
  ⟨rfl, rfl, rfl, rfl, rfl⟩

/-- C3: after any successful `initContract`, a second `initContract` with
any payload always fails AlreadyExists — also when the first payload had an
empty election list. -/
theorem C3_init_guard (l l' : Ledger) (d1 d2 : InitData) (b : Bool)
    (h : initContract l d1 = .ok (l', b)) :
    initContract l' d2 = .error .alreadyInitiated := by
  obtain ⟨hq, hl'⟩ := initContract_ok_inv h
  have hev : (LKey.event d1.event.id,
      Record.event ⟨d1.event.id, d1.event.startDate, d1.event.endDate⟩) ∈ l' := by
    rw [hl']
    apply mem_putCandidates_of_mem (fun i => by simp)
    apply mem_putElections_of_mem (fun i => by simp)
    exact mem_putState.mpr (Or.inl rfl)
  have hq' : queryEvents l' ≠ [] := queryEvents_ne_nil_of_mem hev rfl
  unfold initContract
  cases hqe : queryEvents l' with
  | nil => exact absurd hqe hq'
  | cons x xs => rfl

/-- Witness for C3: the first init has an empty election list. -/
theorem C3_witness :
    initContract (commitTx (initContract [] exInitEmpty) []) exInit =
      .error .alreadyInitiated :=
  C3_init_guard [] _ exInitEmpty exInit true rfl

/-- C4: `emitVote` is not deterministic, contradicting the claim: the Vote
id is drawn from `Math.random()`, so two executions of the same call from
the same state can draw different ids (here `aaa` versus `bbb`) and commit
different ledger states. -/
theorem C4_emitVote_nondeterministic :
    (emitVote exampleLedger2 1500 "aaa" "e1" "v1" ["c1"]).isOk = true ∧
    (emitVote exampleLedger2 1500 "bbb" "e1" "v1" ["c1"]).isOk = true ∧
    decide (commitTx (emitVote exampleLedger2 1500 "aaa" "e1" "v1" ["c1"])
        exampleLedger2 =
      commitTx (emitVote exampleLedger2 1500 "bbb" "e1" "v1" ["c1"])
        exampleLedger2) = false := by
  exact ⟨rfl, rfl, by decide⟩

/-- C5: in an initialized state, inside the voting window, with the election
existing and a voter who has not voted in it, `emitVote` with a candidate
list whose length differs from `maxVotes` fails BadRequest and performs no
writes. -/
theorem C5_wrong_count (l : Ledger) (now : Int)
    (freshVoteId electionId voterId : String) (candidateIds : List String)
    (i : String) (ev : EventRec) (er : ElectionRec) (w : VoterRec)
    (hev : getState l (.event i) = some (.event ev))
    (_hwin : ev.startDate ≤ now ∧ now < ev.endDate)
    (hel : getState l (.election electionId) = some (.election er))
    (hid : er.id = electionId)
    (hv : getState l (.voter voterId) = some (.voter w))
    (hnm : electionId ∉ w.votedElectionIds)
    (hc : candidateIds.length ≠ er.maxVotes) :
    emitVote l now freshVoteId electionId voterId candidateIds =
      .error .wrongCandidateCount ∧
    commitTx (emitVote l now freshVoteId electionId voterId candidateIds) l
      = l := by
  have hq : queryEvents l ≠ [] :=
    queryEvents_ne_nil_of_mem (getState_eq_some_mem hev) rfl
  have heq := emitVote_eq_of_checks hq hel hv now freshVoteId candidateIds
  rw [hid] at heq
  rw [heq, if_neg hnm, if_pos hc]
  exact ⟨rfl, rfl⟩

/-- Witness for C5: election `e1` requires one candidate, two are sent. -/
theorem C5_witness :
    emitVote exampleLedger2 1500 "vid9" "e1" "v1" ["c1", "c1"] =
      .error .wrongCandidateCount ∧
    commitTx (emitVote exampleLedger2 1500 "vid9" "e1" "v1" ["c1", "c1"])
      exampleLedger2 = exampleLedger2 :=
  C5_wrong_count exampleLedger2 1500 "vid9" "e1" "v1" ["c1", "c1"]
    "ev1" ⟨"ev1", 1000, 2000⟩ ⟨"e1", "ev1", "single", 1⟩
    ⟨"v1", "Jane", "Roe", []⟩ rfl ⟨by decide, by decide⟩ rfl rfl rfl
    (by decide) (by decide)

end Boxting

namespace Boxting

/-- C6 counterexample: in the reachable state `exampleLedgerB2`, candidate
`c2` exists and belongs to election `e2`, not to the target election `e1`;
the candidate list `["nope", "c2"]` (length 2 = maxVotes of `e1`) contains
this mismatched existing candidate, yet `emitVote` fails NotFound for the
earlier missing id `nope` — not BadRequest as the claim states. -/
theorem C6_counterexample :
    getState exampleLedgerB2 (.candidate "c2") =
      some (.candidate ⟨"c2", "e2", "Bob", "Kim", "img", 0⟩) ∧
    decide ((⟨"c2", "e2", "Bob", "Kim", "img", 0⟩ : VotableItem).electionId
      = "e1") = false ∧
    emitVote exampleLedgerB2 1500 "vidX" "e1" "v1" ["nope", "c2"] =
      .error (.candidateNotFound "nope") :=
  ⟨rfl, rfl, rfl⟩

/-- C6 amended: the candidate loop reports the first offending id in list
order.  When every id before the offender references an existing candidate
of the target election, an existing candidate of a different election fails
BadRequest (does not belong) and a missing id fails NotFound; either way
no write happens. -/
theorem C6_first_offender (l : Ledger) (now : Int)
    (freshVoteId electionId voterId : String)
    (pre : List String) (c : String) (post : List String)
    (er : ElectionRec) (w : VoterRec)
    (hq : queryEvents l ≠ [])
    (hel : getState l (.election electionId) = some (.election er))
    (hid : er.id = electionId)
    (hv : getState l (.voter voterId) = some (.voter w))
    (hnm : electionId ∉ w.votedElectionIds)
    (hlen : (pre ++ c :: post).length = er.maxVotes)
    (hpre : ∀ x ∈ pre, ∃ item : VotableItem,
      getState l (.candidate x) = some (.candidate item) ∧
      item.electionId = electionId) :
    (∀ item : VotableItem,
      getState l (.candidate c) = some (.candidate item) →
      item.electionId ≠ electionId →
      emitVote l now freshVoteId electionId voterId (pre ++ c :: post) =
        .error (.candidateNotInElection c) ∧
      commitTx (emitVote l now freshVoteId electionId voterId
        (pre ++ c :: post)) l = l) ∧
    (getState l (.candidate c) = none →
      emitVote l now freshVoteId electionId voterId (pre ++ c :: post) =
        .error (.candidateNotFound c) ∧
      commitTx (emitVote l now freshVoteId electionId voterId
        (pre ++ c :: post)) l = l) := by
  have heq := emitVote_eq_of_checks hq hel hv now freshVoteId (pre ++ c :: post)
  rw [hid] at heq
  constructor
  · intro item hc hneq
    have hcoll : collectVotables l electionId (pre ++ c :: post) =
        .error (.candidateNotInElection c) :=
      collectVotables_prefix_error
        (collectVotables_head_mismatch hc hneq) hpre
    rw [heq, if_neg hnm, if_neg (by simp [hlen]), hcoll]
    exact ⟨rfl, rfl⟩
  · intro hc
    have hcoll : collectVotables l electionId (pre ++ c :: post) =
        .error (.candidateNotFound c) :=
      collectVotables_prefix_error
        (collectVotables_head_notfound hc) hpre
    rw [heq, if_neg hnm, if_neg (by simp [hlen]), hcoll]
    exact ⟨rfl, rfl⟩

/-- Witness for the amended C6: with the good prefix `["c1"]`, the
mismatched existing candidate `c2` gives BadRequest and the missing id
`nope` gives NotFound. -/
theorem C6_witness :
    emitVote exampleLedgerB2 1500 "vidY" "e1" "v1" ["c1", "c2"] =
      .error (.candidateNotInElection "c2") ∧
    emitVote exampleLedgerB2 1500 "vidY" "e1" "v1" ["c1", "nope"] =
      .error (.candidateNotFound "nope") := by
  constructor
  · exact ((C6_first_offender exampleLedgerB2 1500 "vidY" "e1" "v1"
      ["c1"] "c2" [] ⟨"e1", "ev1", "multiple", 2⟩ ⟨"v1", "Jane", "Roe", []⟩
      (by decide) rfl rfl rfl (by decide) rfl
      (by
        intro x hx
        simp at hx
        subst hx
        exact ⟨⟨"c1", "e1", "Ann", "Lee", "img", 0⟩, rfl, rfl⟩)).1
      ⟨"c2", "e2", "Bob", "Kim", "img", 0⟩ rfl (by decide)).1
  · exact ((C6_first_offender exampleLedgerB2 1500 "vidY" "e1" "v1"
      ["c1"] "nope" [] ⟨"e1", "ev1", "multiple", 2⟩ ⟨"v1", "Jane", "Roe", []⟩
      (by decide) rfl rfl rfl (by decide) rfl
      (by
        intro x hx
        simp at hx
        subst hx
        exact ⟨⟨"c1", "e1", "Ann", "Lee", "img", 0⟩, rfl, rfl⟩)).2 rfl).1

/-- C7: with the contract initialized and the election and voter existing,
`readVote` fails BadRequest (has not voted yet) exactly when the voter
votedElectionIds is empty; otherwise, in a reachable state where the voter
has voted somewhere but not in this election, the vote query is empty and
it fails BadRequest (has not voted yet on this election). -/
theorem C7_readVote_errors (l : Ledger) (electionId voterId : String)
    (rel : Record) (w : VoterRec)
    (hq : queryEvents l ≠ [])
    (hel : getState l (.election electionId) = some rel)
    (hv : getState l (.voter voterId) = some (.voter w)) :
    (w.votedElectionIds = [] →
      readVote l electionId voterId = .error .notVotedYet) ∧
    (Reachable l → w.votedElectionIds ≠ [] →
      electionId ∉ w.votedElectionIds →
      readVote l electionId voterId = .error .notVotedOnElection) := by
  have heq := readVote_eq_of_checks hq hel hv
  constructor
  · intro hempty
    rw [heq, if_pos (by simp [hempty])]
  · intro hreach hne hnm
    have hInv := inv_of_reachable hreach
    have hquery := voteQuery_empty_of_not_voted hInv hv hnm
    rw [heq, if_neg (by simpa using hne), hquery]

/-- Witness for C7: `v1` never voted in `exampleLedger2`; in
`exampleLedgerB3` the same voter voted in `e2` but not in `e1`. -/
theorem C7_witness :
    readVote exampleLedger2 "e1" "v1" = .error .notVotedYet ∧
    readVote exampleLedgerB3 "e1" "v1" = .error .notVotedOnElection := by
  constructor
  · exact (C7_readVote_errors exampleLedger2 "e1" "v1"
      (.election ⟨"e1", "ev1", "single", 1⟩) ⟨"v1", "Jane", "Roe", []⟩
      (by decide) rfl rfl).1 rfl
  · exact (C7_readVote_errors exampleLedgerB3 "e1" "v1"
      (.election ⟨"e1", "ev1", "multiple", 2⟩) ⟨"v1", "Jane", "Roe", ["e2"]⟩
      (by decide) rfl rfl).2 reachable_exampleLedgerB3 (by decide) (by decide)

/-- C9: in every reachable state every candidate record still has
voteCount 0 (no handler increments it), and a successful `emitVote` writes
only the voter key and the generated vote key: every other key — Event,
Election and VotableItem records in particular — reads the same before and
after. -/
theorem C9_frame_and_votecount :
    (∀ l : Ledger, Reachable l →
      ∀ p ∈ l, ∀ c : VotableItem, p.2 = .candidate c → c.voteCount = 0) ∧
    (∀ (l l' : Ledger) (now : Int)
        (freshVoteId electionId voterId : String)
        (candidateIds : List String) (b : Bool), Reachable l →
      emitVote l now freshVoteId electionId voterId candidateIds =
        .ok (l', b) →
      ∀ k : LKey, k ≠ .voter voterId → k ≠ .vote freshVoteId →
        getState l' k = getState l k) := by
  constructor
  · intro l hreach
    exact (inv_of_reachable hreach).candZero
  · intro l l' now freshVoteId electionId voterId candidateIds b hreach hok
      k hk1 hk2
    have hInv := inv_of_reachable hreach
    obtain ⟨er, w, votables, hq, hel, hv, hnm, hlen, hcoll, hl'⟩ :=
      emitVote_ok_inv hok
    have hwid : w.id = voterId := voterId_of_getState hInv.wf hv
    rw [hl', getState_putState_ne _ _ _ _ (Ne.symm hk2),
      getState_putState_ne _ _ _ _ (by rw [hwid]; exact Ne.symm hk1)]

/-- Witness for C9: the candidate record of `c1` has voteCount 0 after the
vote, and its binding is untouched by the `emitVote` that produced
`exampleLedger3`. -/
theorem C9_witness :
    (⟨"c1", "e1", "John", "Doe", "img", 0⟩ : VotableItem).voteCount = 0 ∧
    getState exampleLedger3 (.candidate "c1") =
      getState exampleLedger2 (.candidate "c1") := by
  constructor
  · exact C9_frame_and_votecount.1 exampleLedger3 reachable_exampleLedger3
      (.candidate "c1", .candidate ⟨"c1", "e1", "John", "Doe", "img", 0⟩)
      (by decide) _ rfl
  · exact C9_frame_and_votecount.2 exampleLedger2 exampleLedger3 1500 "vid1"
      "e1" "v1" ["c1"] true reachable_exampleLedger2 voteStep_ex3
      (.candidate "c1") (by decide) (by decide)

/-- C10: `createVoter` fails AlreadyExists exactly when a record exists at
`voter-<id>`, with no initialization check: on any ledger without that
binding — including the empty, uninitialized one — it succeeds and writes a
Voter whose votedElectionIds is empty. -/
theorem C10_createVoter_guard (l : Ledger) (d : VoterData) :
    (getState l (.voter d.id) = none →
      createVoter l d =
        .ok (putState l (.voter d.id)
          (.voter ⟨d.id, d.firstName, d.lastName, []⟩), true)) ∧
    (∀ r : Record, getState l (.voter d.id) = some r →
      createVoter l d = .error (.voterAlreadyExists d.id)) := by
  constructor
  · intro hg
    unfold createVoter
    rw [hg]
  · intro r hg
    unfold createVoter
    rw [hg]

/-- Witness for C10: creation succeeds on the empty, uninitialized ledger
and fails on a state already holding `v1`. -/
theorem C10_witness :
    createVoter [] exVoterData =
      .ok (putState [] (.voter "v1") (.voter ⟨"v1", "Jane", "Roe", []⟩),
        true) ∧
    createVoter exampleLedger2 exVoterData =
      .error (.voterAlreadyExists "v1") := by
  constructor
  · exact (C10_createVoter_guard [] exVoterData).1 rfl
  · exact (C10_createVoter_guard exampleLedger2 exVoterData).2
      (.voter ⟨"v1", "Jane", "Roe", []⟩) rfl

end Boxting

namespace Boxting

/-- C8: commitment round trip.  After `create` stored `privateValue = P`
under the caller organization, `verify` with an equal object returns
ok true; with any object whose serialization differs from the stored record
it returns ok false rather than failing (under injectivity of the hash, the
collision-freeness idealization of SHA-256); and `verify` against a key
with no stored private-data hash fails NotFound. -/
theorem C8_commitment_roundtrip (H : String → String) (s s' : PrivStore)
    (mspid id P : String) (transient : List (String × String))
    (hP : transient.lookup "privateValue" = some P)
    (hok : createBoxtingVoting H s mspid id transient = .ok s') :
    verifyBoxtingVoting H s' mspid id ⟨P⟩ = .ok true ∧
    (∀ Q : BoxtingVoting, Function.Injective H →
      stringifyBoxtingVoting Q ≠ stringifyBoxtingVoting ⟨P⟩ →
      verifyBoxtingVoting H s' mspid id Q = .ok false) ∧
    (∀ (s0 : PrivStore) (id0 : String),
      getPrivateData s0 ("_implicit_org_" ++ mspid) id0 = none →
      verifyBoxtingVoting H s0 mspid id0 ⟨P⟩ =
        .error (.privateHashNotFound id0)) := by
  unfold createBoxtingVoting at hok
  by_cases hex : boxtingVotingExists H s mspid id = true
  · rw [if_pos hex] at hok
    cases hok
  · rw [if_neg hex, hP] at hok
    simp only [Except.ok.injEq] at hok
    subst hok
    refine ⟨?_, ?_, ?_⟩
    · simp [verifyBoxtingVoting, getPrivateDataHash, collectionNameOf,
        getPrivateData_putPrivateData_self]
    · intro Q hinj hne
      have hHne : H (stringifyBoxtingVoting Q) ≠
          H (stringifyBoxtingVoting ⟨P⟩) := fun hc => hne (hinj hc)
      simp [verifyBoxtingVoting, getPrivateDataHash, collectionNameOf,
        getPrivateData_putPrivateData_self, hHne]
    · intro s0 id0 hnone
      simp [verifyBoxtingVoting, getPrivateDataHash, hnone]

/-- Witness for C8 with the identity as (injective) hash function,
organization `org1`, key `id1` and payload `a`. -/
theorem C8_witness :
    verifyBoxtingVoting (fun x => x) examplePrivStore "org1" "id1" ⟨"a"⟩ =
      .ok true ∧
    verifyBoxtingVoting (fun x => x) examplePrivStore "org1" "id1" ⟨"b"⟩ =
      .ok false ∧
    verifyBoxtingVoting (fun x => x) [] "org1" "id1" ⟨"a"⟩ =
      .error (.privateHashNotFound "id1") := by
  have h := C8_commitment_roundtrip (fun x => x) [] examplePrivStore "org1"
    "id1" "a" [("privateValue", "a")] rfl rfl
  exact ⟨h.1, h.2.1 ⟨"b"⟩ Function.injective_id (by decide),
    h.2.2 [] "id1" rfl⟩

end Boxting
